import Mathlib

/-!
# Product catalog service: entity validation and CRUD handlers

A shallow embedding of

* `internal/entity/product.go` (the `Product` entity, `NewProduct`, `Validate`),
* `internal/infra/database/interfaces.go` (the `ProductInterface` repository contract),
* `internal/infra/webserver/handlers/product_handlers.go` (the five HTTP handlers),

followed by theorems about them.

Conventions of the embedding:

* a Go `error` result is an `Option`: `none` is `nil`;
* a Go pointer `*Product` is an `Option (Product ID)`: `none` is the nil pointer;
* a `(value, error)` pair is a Lean pair;
* the identifier package `gordan/pkg/entity`, the JSON decoder, the marshalers of ids and
  instants used by the JSON encoder, and the repository are collaborators whose code is
  outside the embedded files: they are parameters;
* `json.NewEncoder(w).Encode(v)` fails, and writes nothing, when a value does not marshal
  (an infinite or NaN float64, a failing field marshaler); the handlers discard its error;
* every repository invocation made by a handler is appended to an event log, together with
  the error it returned, so that "invoked exactly once" and "never invoked" are statements
  about that log.
-/

namespace GoExpert

/-! ## float64 -/

/-- An IEEE-754 binary64 value, by its three bit fields (1 + 11 + 52 bits). -/
structure Float64 where
  sign : Bool
  exponent : Fin 2048
  fraction : Fin 4503599627370496
deriving DecidableEq

namespace Float64

/-- Not-a-number: all exponent bits set and a non-zero fraction. -/
def isNaN (f : Float64) : Bool :=
  f.exponent.val == 2047 && f.fraction.val != 0

/-- Go `math.IsInf(f, 0)`: all exponent bits set and a zero fraction. -/
def isInf (f : Float64) : Bool :=
  f.exponent.val == 2047 && f.fraction.val == 0

/-- Go `f == 0`: true for `+0` and `-0` only. -/
def eqZero (f : Float64) : Bool :=
  f.exponent.val == 0 && f.fraction.val == 0

/-- Go `f < 0`: sign bit set, not a NaN, not a zero. -/
def ltZero (f : Float64) : Bool :=
  f.sign && !f.isNaN && !f.eqZero

/-- Go `f > 0`: sign bit clear, not a NaN, not a zero. -/
def gtZero (f : Float64) : Bool :=
  !f.sign && !f.isNaN && !f.eqZero

/-- The float64 value `10.0` (1.25 * 2^3). -/
def ten : Float64 := ⟨false, 1026, 1125899906842624⟩

/-- The float64 value `-1`. -/
def minusOne : Float64 := ⟨true, 1023, 0⟩

/-- The float64 value `+Inf`. -/
def posInf : Float64 := ⟨false, 2047, 0⟩

/-- The float64 value `+0`, the conversion of the Go constant `0`. -/
def zero : Float64 := ⟨false, 0, 0⟩

end Float64

/-! ## The identifier collaborator (`gordan/pkg/entity`) -/

/-- The three operations of package `gordan/pkg/entity` that the embedded code calls.
`NewID` is a generator: its argument is the draw of the random source. -/
structure IDPkg (ID : Type) where
  NewID : Nat → ID
  ParseID : String → Except String ID
  IDString : ID → String

/-- The instant returned by `time.Now()`. -/
structure Time where
  unixNano : Int
deriving DecidableEq

/-- What a call of `NewProduct` reads from its surroundings: the draw used by `NewID()`
and the clock read by `time.Now()`. -/
structure World where
  entropy : Nat
  now : Time
deriving DecidableEq

/-! ## `internal/entity/product.go` -/

/-- The five sentinel errors declared in `product.go`. -/
inductive EntityError where
  | ErrorIdIsRequired
  | ErrorIdIsInvalid
  | ErrorNameIsRequired
  | ErrorPriceIsRequired
  | ErrorPriceIsInvalid
deriving DecidableEq

open EntityError

/-- The struct `Product`. -/
structure Product (ID : Type) where
  ID : ID
  Name : String
  Price : Float64
  CreatedAt : Time
deriving DecidableEq

/-- The method `(p *Product) Validate() error`. -/
def Validate {ID : Type} (pkg : IDPkg ID) (p : Product ID) : Option EntityError :=
  if pkg.IDString p.ID = "" then
    some ErrorIdIsRequired
  else
    match pkg.ParseID (pkg.IDString p.ID) with
    | .error _ => some ErrorIdIsInvalid
    | .ok _ =>
      if p.Name = "" then
        some ErrorNameIsRequired
      else if p.Price.eqZero then
        some ErrorPriceIsRequired
      else if p.Price.ltZero then
        some ErrorPriceIsInvalid
      else
        none

/-- The function `NewProduct(name string, price float64) (*Product, error)`. -/
def NewProduct {ID : Type} (pkg : IDPkg ID) (w : World) (name : String) (price : Float64) :
    Option (Product ID) × Option EntityError :=
  let product : Product ID :=
    { ID := pkg.NewID w.entropy, Name := name, Price := price, CreatedAt := w.now }
  match Validate pkg product with
  | some err => (none, some err)
  | none => (some product, none)

/-! ## `strconv.Atoi` -/

/-- The decimal value of a list of ASCII digits, most significant first. -/
def digitsValue (ds : List Char) : Nat :=
  ds.foldl (fun acc c => 10 * acc + (c.toNat - 48)) 0

/-- Go `strconv.Atoi` on a platform with 64-bit `int`: an optional sign followed by one
or more ASCII decimal digits, with a value in the range of `int64`; anything else is an
error (`none`). -/
def Atoi (s : String) : Option Int :=
  let signed : Bool × List Char :=
    match s.data with
    | '-' :: rest => (true, rest)
    | '+' :: rest => (false, rest)
    | cs => (false, cs)
  if signed.2.isEmpty then
    none
  else if signed.2.all (fun c => decide (48 ≤ c.toNat ∧ c.toNat ≤ 57)) then
    let v : Int := if signed.1 then -(digitsValue signed.2 : Int) else (digitsValue signed.2 : Int)
    if -9223372036854775808 ≤ v ∧ v ≤ 9223372036854775807 then some v else none
  else
    none

/-! ## `internal/infra/database/interfaces.go` -/

/-- An error returned by the persistence engine: either the lookup miss ("record not
found") or any other failure (connectivity, constraint violation, ...). -/
inductive StoreError where
  | ErrRecordNotFound
  | Failure (msg : String)
deriving DecidableEq

/-- The interface `ProductInterface`, over a store of type `σ`. Each method reads the
store and returns its Go results together with the store it leaves behind. -/
structure ProductInterface (σ : Type) (ID : Type) where
  Create : Option (Product ID) → σ → Option StoreError × σ
  FindAll : Int → Int → String → σ → (List (Product ID) × Option StoreError) × σ
  FindByID : String → σ → (Option (Product ID) × Option StoreError) × σ
  Update : Option (Product ID) → σ → Option StoreError × σ
  Delete : Option (Product ID) → σ → Option StoreError × σ

/-- One invocation of a repository method, with its arguments. -/
inductive Call (ID : Type) where
  | Create (product : Option (Product ID))
  | FindAll (page limit : Int) (sort : String)
  | FindByID (id : String)
  | Update (product : Option (Product ID))
  | Delete (product : Option (Product ID))
deriving DecidableEq

/-- A logged repository invocation and the error it returned. -/
structure Event (ID : Type) where
  call : Call ID
  err : Option StoreError
deriving DecidableEq

/-! ## `internal/infra/webserver/handlers/product_handlers.go` -/

/-- The struct `dto.CreateProductInput`, as the handler uses it. -/
structure CreateProductInput where
  Name : String
  Price : Float64
deriving DecidableEq

/-- The JSON decoder `json.NewDecoder(r.Body).Decode(&v)` at the two types the handlers
decode into. -/
structure JSONDecoder (ID : Type) where
  DecodeCreateProductInput : String → Except String CreateProductInput
  DecodeProduct : String → Except String (Product ID)

/-- What a handler reads of `*http.Request`: `chi.URLParam(r, key)`,
`r.URL.Query().Get(key)` (both return `""` for an absent key) and the body. -/
structure Request where
  URLParam : String → String
  QueryGet : String → String
  Body : String

/-- A value handed to `json.NewEncoder(w).Encode`. -/
inductive Encoded (ID : Type) where
  | product (p : Option (Product ID))
  | products (ps : List (Product ID))
deriving DecidableEq

/-- The two marshalers that `encoding/json` calls on fields of a product and whose code is
outside the embedded files: the text marshaler of the id type and
`time.Time.MarshalJSON`. The result `false` is an error. -/
structure JSONEncoder (ID : Type) where
  MarshalID : ID → Bool
  MarshalTime : Time → Bool

/-- Whether `encoding/json` marshals a product without error. The fields are marshaled in
order and the first error aborts: the id by its text marshaler, the name (a string always
marshals), the price (a float64 that is infinite or NaN is an unsupported value), the
creation time by `MarshalJSON`. -/
def marshalsProduct {ID : Type} (enc : JSONEncoder ID) (p : Product ID) : Bool :=
  enc.MarshalID p.ID && !(p.Price.isInf || p.Price.isNaN) && enc.MarshalTime p.CreatedAt

/-- Whether `encoding/json` marshals the value without error: a nil pointer marshals as
`null`, a sequence marshals when each of its elements does. -/
def marshals {ID : Type} (enc : JSONEncoder ID) : Encoded ID → Bool
  | Encoded.product none => true
  | Encoded.product (some p) => marshalsProduct enc p
  | Encoded.products ps => ps.all (fun p => marshalsProduct enc p)

/-- What has been written to `http.ResponseWriter`: the status code (`0` while
`WriteHeader` has not been called), the headers set, the values encoded into the body. -/
structure ResponseWriter (ID : Type) where
  status : Nat
  header : List (String × String)
  body : List (Encoded ID)
deriving DecidableEq

def StatusOK : Nat := 200
def StatusCreated : Nat := 201
def StatusBadRequest : Nat := 400
def StatusNotFound : Nat := 404
def StatusInternalServerError : Nat := 500

/-- The state of one request being handled: the store, the repository invocations made so
far (oldest first) and the response written so far. -/
structure Exchange (σ : Type) (ID : Type) where
  store : σ
  events : List (Event ID)
  w : ResponseWriter ID

namespace Exchange

variable {σ ID : Type}

/-- The state when the handler is entered. -/
def start (s : σ) : Exchange σ ID :=
  { store := s, events := [], w := { status := 0, header := [], body := [] } }

/-- The statement `w.WriteHeader(code)`. -/
def WriteHeader (x : Exchange σ ID) (code : Nat) : Exchange σ ID :=
  { x with w := { x.w with status := code } }

/-- The statement `w.Header().Set(key, value)`. -/
def HeaderSet (x : Exchange σ ID) (key value : String) : Exchange σ ID :=
  { x with w := { x.w with header := (key, value) :: x.w.header.filter (fun kv => kv.1 != key) } }

/-- The statement `json.NewEncoder(w).Encode(v)`, whose error result the handlers discard:
the value is marshaled first and written to the body only when marshaling succeeds; on an
error nothing is written. -/
def Encode (x : Exchange σ ID) (enc : JSONEncoder ID) (v : Encoded ID) : Exchange σ ID :=
  if marshals enc v then
    { x with w := { x.w with body := x.w.body ++ [v] } }
  else
    x

/-- The call `h.ProductDB.Create(p)`. -/
def Create (x : Exchange σ ID) (db : ProductInterface σ ID) (p : Option (Product ID)) :
    Option StoreError × Exchange σ ID :=
  let r := db.Create p x.store
  (r.1, { x with store := r.2, events := x.events ++ [⟨Call.Create p, r.1⟩] })

/-- The call `h.ProductDB.FindAll(page, limit, sort)`. -/
def FindAll (x : Exchange σ ID) (db : ProductInterface σ ID) (page limit : Int) (sort : String) :
    (List (Product ID) × Option StoreError) × Exchange σ ID :=
  let r := db.FindAll page limit sort x.store
  (r.1, { x with store := r.2, events := x.events ++ [⟨Call.FindAll page limit sort, r.1.2⟩] })

/-- The call `h.ProductDB.FindByID(id)`. -/
def FindByID (x : Exchange σ ID) (db : ProductInterface σ ID) (id : String) :
    (Option (Product ID) × Option StoreError) × Exchange σ ID :=
  let r := db.FindByID id x.store
  (r.1, { x with store := r.2, events := x.events ++ [⟨Call.FindByID id, r.1.2⟩] })

/-- The call `h.ProductDB.Update(p)`. -/
def Update (x : Exchange σ ID) (db : ProductInterface σ ID) (p : Option (Product ID)) :
    Option StoreError × Exchange σ ID :=
  let r := db.Update p x.store
  (r.1, { x with store := r.2, events := x.events ++ [⟨Call.Update p, r.1⟩] })

/-- The call `h.ProductDB.Delete(p)`. -/
def Delete (x : Exchange σ ID) (db : ProductInterface σ ID) (p : Option (Product ID)) :
    Option StoreError × Exchange σ ID :=
  let r := db.Delete p x.store
  (r.1, { x with store := r.2, events := x.events ++ [⟨Call.Delete p, r.1⟩] })

/-- The repository invocations made, in order, without their results. -/
def calls (x : Exchange σ ID) : List (Call ID) :=
  x.events.map (fun e => e.call)

/-- The status code of the response. -/
def status (x : Exchange σ ID) : Nat :=
  x.w.status

end Exchange

section Handlers

variable {σ ID : Type}

/-- The handler `CreateProduct`. -/
def CreateProduct (pkg : IDPkg ID) (json : JSONDecoder ID) (db : ProductInterface σ ID)
    (world : World) (r : Request) (s : σ) : Exchange σ ID :=
  let x : Exchange σ ID := Exchange.start s
  match json.DecodeCreateProductInput r.Body with
  | .error _ => x.WriteHeader StatusBadRequest
  | .ok product =>
    match NewProduct pkg world product.Name product.Price with
    | (_, some _) => x.WriteHeader StatusBadRequest
    | (p, none) =>
      match x.Create db p with
      | (some _, x1) => x1.WriteHeader StatusInternalServerError
      | (none, x1) => x1.WriteHeader StatusCreated

/-- The handler `GetProduct`. -/
def GetProduct (enc : JSONEncoder ID) (db : ProductInterface σ ID) (r : Request) (s : σ) :
    Exchange σ ID :=
  let x : Exchange σ ID := Exchange.start s
  let id := r.URLParam "id"
  if id = "" then
    x.WriteHeader StatusBadRequest
  else
    match x.FindByID db id with
    | ((_, some _), x1) => x1.WriteHeader StatusNotFound
    | ((product, none), x1) =>
      ((x1.HeaderSet "Content-Type" "application/json").WriteHeader StatusOK).Encode enc
        (Encoded.product product)

/-- The handler `UpdateProduct`. -/
def UpdateProduct (pkg : IDPkg ID) (json : JSONDecoder ID) (db : ProductInterface σ ID)
    (r : Request) (s : σ) : Exchange σ ID :=
  let x : Exchange σ ID := Exchange.start s
  let id := r.URLParam "id"
  if id = "" then
    x.WriteHeader StatusBadRequest
  else
    match json.DecodeProduct r.Body with
    | .error _ => x.WriteHeader StatusBadRequest
    | .ok decoded =>
      match pkg.ParseID id with
      | .error _ => x.WriteHeader StatusBadRequest
      | .ok parsed =>
        let product : Product ID := { decoded with ID := parsed }
        match x.FindByID db id with
        | ((_, some _), x1) => x1.WriteHeader StatusNotFound
        | ((_, none), x1) =>
          match x1.Update db (some product) with
          | (some _, x2) => x2.WriteHeader StatusInternalServerError
          | (none, x2) => x2.WriteHeader StatusOK

/-- The handler `DeleteProduct`. -/
def DeleteProduct (db : ProductInterface σ ID) (r : Request) (s : σ) : Exchange σ ID :=
  let x : Exchange σ ID := Exchange.start s
  let id := r.URLParam "id"
  if id = "" then
    x.WriteHeader StatusBadRequest
  else
    match x.FindByID db id with
    | ((_, some _), x1) => x1.WriteHeader StatusNotFound
    | ((product, none), x1) =>
      match x1.Delete db product with
      | (some _, x2) => x2.WriteHeader StatusInternalServerError
      | (none, x2) => x2.WriteHeader StatusOK

/-- The handler `GetAllProducts`. -/
def GetAllProducts (enc : JSONEncoder ID) (db : ProductInterface σ ID) (r : Request) (s : σ) :
    Exchange σ ID :=
  let x : Exchange σ ID := Exchange.start s
  let page := r.QueryGet "page"
  let limit := r.QueryGet "limit"
  let sort := r.QueryGet "sort"
  let pageInt : Int :=
    match Atoi page with
    | some v => v
    | none => 0
  let limitInt : Int :=
    match Atoi limit with
    | some v => v
    | none => 0
  let sort := if sort = "" then "desc" else sort
  match x.FindAll db pageInt limitInt sort with
  | ((_, some _), x1) => x1.WriteHeader StatusNotFound
  | ((products, none), x1) =>
    ((x1.HeaderSet "Content-Type" "application/json").WriteHeader StatusOK).Encode enc
      (Encoded.products products)

end Handlers

/-! ## Concrete collaborators, for evaluating the code on concrete inputs -/

/-- An identifier package whose ids are natural numbers written in decimal: `NewID`
returns its draw, `IDString` writes the decimal digits, `ParseID` accepts exactly the
non-empty strings of ASCII digits. -/
def decimalIDs : IDPkg Nat where
  NewID := fun draw => draw
  ParseID := fun s =>
    if s.data.isEmpty then .error "empty id"
    else if s.data.all (fun c => decide (48 ≤ c.toNat ∧ c.toNat ≤ 57)) then .ok (digitsValue s.data)
    else .error "invalid id"
  IDString := fun n => String.mk (Nat.toDigits 10 n)

/-- A decoder that knows three request bodies. -/
def tableDecoder : JSONDecoder Nat where
  DecodeCreateProductInput := fun body =>
    if body = "\x7b\"name\":\"Product 1\",\"price\":10\x7d" then .ok ⟨"Product 1", Float64.ten⟩
    else if body = "\x7b\"name\":\"\",\"price\":-1\x7d" then .ok ⟨"", Float64.minusOne⟩
    else .error "unexpected body"
  DecodeProduct := fun body =>
    if body = "\x7b\"id\":\"99\",\"name\":\"\",\"price\":-1\x7d" then
      .ok ⟨99, "", Float64.minusOne, ⟨5⟩⟩
    else .error "unexpected body"

/-- The field marshalers for decimal ids: an id always marshals, and an instant marshals
when its UTC year lies in 0..9999. -/
def decimalEncoder : JSONEncoder Nat where
  MarshalID := fun _ => true
  MarshalTime := fun t =>
    decide (-62167219200000000000 ≤ t.unixNano ∧ t.unixNano < 253402300800000000000)

/-- An in-memory repository: the store is the list of records, oldest first. -/
def memDB : ProductInterface (List (Product Nat)) Nat where
  Create := fun p s =>
    match p with
    | none => (some (StoreError.Failure "nil record"), s)
    | some q => (none, s ++ [q])
  FindAll := fun _ _ sort s => ((if sort = "asc" then s else s.reverse, none), s)
  FindByID := fun id s =>
    match s.find? (fun q => decimalIDs.IDString q.ID == id) with
    | some q => ((some q, none), s)
    | none => ((none, some StoreError.ErrRecordNotFound), s)
  Update := fun p s =>
    match p with
    | none => (some (StoreError.Failure "nil record"), s)
    | some q => (none, s.map (fun old => if old.ID = q.ID then q else old))
  Delete := fun p s =>
    match p with
    | none => (some (StoreError.Failure "nil record"), s)
    | some q => (none, s.filter (fun old => old.ID != q.ID))

/-- A repository whose engine is unreachable: every method fails with a connectivity
error and returns no data. -/
def downDB : ProductInterface Unit Nat where
  Create := fun _ s => (some (StoreError.Failure "connection refused"), s)
  FindAll := fun _ _ _ s => (([], some (StoreError.Failure "connection refused")), s)
  FindByID := fun _ s => ((none, some (StoreError.Failure "connection refused")), s)
  Update := fun _ s => (some (StoreError.Failure "connection refused"), s)
  Delete := fun _ s => (some (StoreError.Failure "connection refused"), s)

/-- A request with the given path id, no query parameters and the given body. -/
def requestWithID (id body : String) : Request where
  URLParam := fun key => if key = "id" then id else ""
  QueryGet := fun _ => ""
  Body := body

/-- A list request with the given `page`, `limit` and `sort` query values. -/
def listRequest (page limit sort : String) : Request where
  URLParam := fun _ => ""
  QueryGet := fun key =>
    if key = "page" then page else if key = "limit" then limit
    else if key = "sort" then sort else ""
  Body := ""

/-- The record with id 7 used in the examples. -/
def sampleProduct : Product Nat := ⟨7, "Product 1", Float64.ten, ⟨1⟩⟩

/-- A record with id 8 whose price is `+Inf`. -/
def infiniteProduct : Product Nat := ⟨8, "Product 2", Float64.posInf, ⟨1⟩⟩

/-! ## Specification-side definitions -/

section SpecSide

variable {ID : Type}

/-- An id is well formed for the identifier package when its string form is non-empty and
parses successfully. -/
def WellFormedID (pkg : IDPkg ID) (id : ID) : Prop :=
  pkg.IDString id ≠ "" ∧ ∃ parsed, pkg.ParseID (pkg.IDString id) = .ok parsed

/-- The five invariants of the data model in their fixed order, each as the test that
detects its violation, paired with the error kind it reports. -/
def productRules (pkg : IDPkg ID) : List ((Product ID → Bool) × EntityError) :=
  [ (fun p => decide (pkg.IDString p.ID = ""), ErrorIdIsRequired),
    (fun p => !(pkg.ParseID (pkg.IDString p.ID)).toBool, ErrorIdIsInvalid),
    (fun p => decide (p.Name = ""), ErrorNameIsRequired),
    (fun p => p.Price.eqZero, ErrorPriceIsRequired),
    (fun p => p.Price.ltZero, ErrorPriceIsInvalid) ]

/-- The error of the first rule of the list that the product violates, if any. -/
def firstViolation (rules : List ((Product ID → Bool) × EntityError)) (p : Product ID) :
    Option EntityError :=
  (rules.find? (fun rule => rule.1 p)).map (fun rule => rule.2)

/-- The status the handlers answer with when a repository invocation fails, by the method
invoked: the two lookups give 404, the three mutations give 500. -/
def statusOfFailedCall : Call ID → Nat
  | Call.FindByID _ => StatusNotFound
  | Call.FindAll _ _ _ => StatusNotFound
  | Call.Create _ => StatusInternalServerError
  | Call.Update _ => StatusInternalServerError
  | Call.Delete _ => StatusInternalServerError

end SpecSide

/-! ## Lemmas on the entity -/

section EntityLemmas

variable {ID : Type}

theorem Float64.gtZero_not_eqZero (f : Float64) (h : f.gtZero = true) : f.eqZero = false := by
  unfold Float64.gtZero at h
  cases hz : f.eqZero <;> simp_all

theorem Float64.gtZero_not_ltZero (f : Float64) (h : f.gtZero = true) : f.ltZero = false := by
  unfold Float64.gtZero at h
  unfold Float64.ltZero
  cases hs : f.sign <;> simp_all

theorem Float64.ltZero_not_eqZero (f : Float64) (h : f.ltZero = true) : f.eqZero = false := by
  unfold Float64.ltZero at h
  cases hz : f.eqZero <;> simp_all

/-- The result of `Validate` once both id rules pass. -/
theorem Validate_of_wellFormed (pkg : IDPkg ID) (p : Product ID) (hid : WellFormedID pkg p.ID) :
    Validate pkg p =
      if p.Name = "" then some ErrorNameIsRequired
      else if p.Price.eqZero then some ErrorPriceIsRequired
      else if p.Price.ltZero then some ErrorPriceIsInvalid
      else none := by
  obtain ⟨hne, parsed, hparse⟩ := hid
  unfold Validate
  rw [if_neg hne, hparse]

/-- Encoding does not touch the status code. -/
@[simp]
theorem Exchange.Encode_status {σ : Type} (x : Exchange σ ID) (enc : JSONEncoder ID)
    (v : Encoded ID) : (x.Encode enc v).w.status = x.w.status := by
  unfold Exchange.Encode
  split <;> rfl

/-- Encoding invokes no repository method. -/
@[simp]
theorem Exchange.Encode_events {σ : Type} (x : Exchange σ ID) (enc : JSONEncoder ID)
    (v : Encoded ID) : (x.Encode enc v).events = x.events := by
  unfold Exchange.Encode
  split <;> rfl

/-- Encoding does not touch the store. -/
@[simp]
theorem Exchange.Encode_store {σ : Type} (x : Exchange σ ID) (enc : JSONEncoder ID)
    (v : Encoded ID) : (x.Encode enc v).store = x.store := by
  unfold Exchange.Encode
  split <;> rfl

/-- The body after encoding: the value is appended when it marshals, nothing otherwise. -/
@[simp]
theorem Exchange.Encode_body {σ : Type} (x : Exchange σ ID) (enc : JSONEncoder ID)
    (v : Encoded ID) :
    (x.Encode enc v).w.body = if marshals enc v then x.w.body ++ [v] else x.w.body := by
  unfold Exchange.Encode
  split <;> rfl

/-- The two possible shapes of the result of `NewProduct`. -/
theorem NewProduct_cases (pkg : IDPkg ID) (w : World) (name : String) (price : Float64) :
    (∃ err, Validate pkg ⟨pkg.NewID w.entropy, name, price, w.now⟩ = some err ∧
        NewProduct pkg w name price = (none, some err)) ∨
    (Validate pkg ⟨pkg.NewID w.entropy, name, price, w.now⟩ = none ∧
        NewProduct pkg w name price = (some ⟨pkg.NewID w.entropy, name, price, w.now⟩, none)) := by
  unfold NewProduct
  cases h : Validate pkg ⟨pkg.NewID w.entropy, name, price, w.now⟩ with
  | some err => exact Or.inl ⟨err, rfl, by simp [h]⟩
  | none => exact Or.inr ⟨rfl, by simp [h]⟩

end EntityLemmas

/-! ## The entity: construction and validation -/

section EntityClaims

variable {ID : Type}

/-- C1. For every non-empty name and every price strictly greater than zero, and a
generated id whose string form is non-empty and parses, `NewProduct` returns no error and
a non-nil product whose `Name` and `Price` are the arguments, whose id has a non-empty
string form, and on which `Validate` returns nil. -/
theorem NewProduct_succeeds_on_valid_input (pkg : IDPkg ID) (w : World) (name : String)
    (price : Float64) (hname : name ≠ "") (hprice : price.gtZero = true)
    (hid : WellFormedID pkg (pkg.NewID w.entropy)) :
    ∃ p, NewProduct pkg w name price = (some p, none) ∧ p.Name = name ∧ p.Price = price ∧
      pkg.IDString p.ID ≠ "" ∧ Validate pkg p = none := by
  have hv : Validate pkg ⟨pkg.NewID w.entropy, name, price, w.now⟩ = none := by
    rw [Validate_of_wellFormed pkg _ hid]
    simp [hname, Float64.gtZero_not_eqZero price hprice, Float64.gtZero_not_ltZero price hprice]
  refine ⟨⟨pkg.NewID w.entropy, name, price, w.now⟩, ?_, rfl, rfl, hid.1, hv⟩
  rcases NewProduct_cases pkg w name price with ⟨err, he, _⟩ | ⟨_, hres⟩
  · rw [hv] at he
    exact absurd he (by simp)
  · exact hres

/-- C1, at the input of `TestNewProduct`: `NewProduct("Product 1", 10.0)` with the decimal
identifier package and draw 7. -/
theorem NewProduct_succeeds_on_valid_input_witness :
    ∃ p, NewProduct decimalIDs ⟨7, ⟨1⟩⟩ "Product 1" Float64.ten = (some p, none) ∧
      p.Name = "Product 1" ∧ p.Price = Float64.ten ∧
      decimalIDs.IDString p.ID ≠ "" ∧ Validate decimalIDs p = none :=
  NewProduct_succeeds_on_valid_input decimalIDs ⟨7, ⟨1⟩⟩ "Product 1" Float64.ten
    (by decide) (by decide) ⟨by decide, 7, rfl⟩

/-- C2. `Validate` returns the error of the first violated rule in the fixed order
id-required, id-invalid, name-required, price-required (price equals zero), price-invalid
(price below zero); it returns nil exactly when no rule is violated; and on a product with
an empty name and a negative price it never returns a price error: it returns
`ErrorNameIsRequired` as soon as the two id rules, which come first, pass. -/
theorem Validate_reports_first_violated_rule (pkg : IDPkg ID) (p : Product ID) :
    Validate pkg p = firstViolation (productRules pkg) p ∧
    (Validate pkg p = none ↔ ∀ rule ∈ productRules pkg, rule.1 p = false) ∧
    (p.Name = "" → p.Price.ltZero = true →
      Validate pkg p ≠ some ErrorPriceIsRequired ∧
      Validate pkg p ≠ some ErrorPriceIsInvalid ∧
      (WellFormedID pkg p.ID → Validate pkg p = some ErrorNameIsRequired)) := by
  have hfirst : Validate pkg p = firstViolation (productRules pkg) p := by
    unfold Validate firstViolation productRules
    by_cases h1 : pkg.IDString p.ID = ""
    · simp [List.find?, h1]
    · cases h2 : pkg.ParseID (pkg.IDString p.ID) with
      | error e => simp [List.find?, h1, h2, Except.toBool]
      | ok parsed =>
        by_cases h3 : p.Name = ""
        · simp [List.find?, h1, h2, h3, Except.toBool]
        · cases h4 : p.Price.eqZero
          · cases h5 : p.Price.ltZero <;> simp [List.find?, h1, h2, h3, h4, h5, Except.toBool]
          · simp [List.find?, h1, h2, h3, h4, Except.toBool]
  refine ⟨hfirst, ?_, ?_⟩
  · rw [hfirst]
    unfold firstViolation
    rw [Option.map_eq_none', List.find?_eq_none]
    constructor
    · intro h rule hmem
      simpa using h rule hmem
    · intro h rule hmem
      simp [h rule hmem]
  · intro hname hneg
    unfold Validate
    by_cases h1 : pkg.IDString p.ID = ""
    · simp [h1, WellFormedID]
    · cases h2 : pkg.ParseID (pkg.IDString p.ID) with
      | error e =>
        simp only [if_neg h1]
        refine ⟨by simp, by simp, ?_⟩
        rintro ⟨_, parsed, hp⟩
        rw [h2] at hp
        exact absurd hp (by simp)
      | ok parsed => simp [h1, hname]

/-- C2, evaluated: a product with a well-formed id, an empty name and price `-1` is
reported as `ErrorNameIsRequired`. -/
theorem Validate_reports_first_violated_rule_witness :
    Validate decimalIDs ⟨7, "", Float64.minusOne, ⟨1⟩⟩ = some ErrorNameIsRequired :=
  (Validate_reports_first_violated_rule decimalIDs ⟨7, "", Float64.minusOne, ⟨1⟩⟩).2.2
    rfl (by decide) |>.2.2 ⟨by decide, 7, rfl⟩

/-- C3. Every error of `NewProduct` comes with a nil product; and when the generated id is
well formed, an empty name gives `ErrorNameIsRequired` for every price, a non-empty name
with a zero price gives `ErrorPriceIsRequired`, and a non-empty name with a negative price
gives `ErrorPriceIsInvalid`, each with a nil product. -/
theorem NewProduct_fails_atomically (pkg : IDPkg ID) (w : World) :
    (∀ name price p err, NewProduct pkg w name price = (p, some err) → p = none) ∧
    (WellFormedID pkg (pkg.NewID w.entropy) →
      (∀ price, NewProduct pkg w "" price = (none, some ErrorNameIsRequired)) ∧
      (∀ name price, name ≠ "" → price.eqZero = true →
        NewProduct pkg w name price = (none, some ErrorPriceIsRequired)) ∧
      (∀ name price, name ≠ "" → price.ltZero = true →
        NewProduct pkg w name price = (none, some ErrorPriceIsInvalid))) := by
  constructor
  · intro name price p err h
    rcases NewProduct_cases pkg w name price with ⟨e, _, hres⟩ | ⟨_, hres⟩
    · rw [hres] at h
      exact (Prod.mk.inj h).1.symm
    · rw [hres] at h
      exact absurd (Prod.mk.inj h).2 (by simp)
  · intro hid
    have key : ∀ name price err,
        Validate pkg ⟨pkg.NewID w.entropy, name, price, w.now⟩ = some err →
        NewProduct pkg w name price = (none, some err) := by
      intro name price err hv
      rcases NewProduct_cases pkg w name price with ⟨e, he, hres⟩ | ⟨hn, _⟩
      · rw [hv] at he
        rw [hres, Option.some.inj he]
      · rw [hv] at hn
        exact absurd hn (by simp)
    refine ⟨?_, ?_, ?_⟩
    · intro price
      apply key
      rw [Validate_of_wellFormed pkg _ hid]
      simp
    · intro name price hname hzero
      apply key
      rw [Validate_of_wellFormed pkg _ hid]
      simp [hname, hzero]
    · intro name price hname hneg
      apply key
      rw [Validate_of_wellFormed pkg _ hid]
      simp [hname, hneg, Float64.ltZero_not_eqZero price hneg]

/-- C3, at the inputs of the three failure tests: `NewProduct("", 10.0)`,
`NewProduct("Product 1", 0)` and `NewProduct("Product 1", -1)`. -/
theorem NewProduct_fails_atomically_witness :
    NewProduct decimalIDs ⟨7, ⟨1⟩⟩ "" Float64.ten = (none, some ErrorNameIsRequired) ∧
    NewProduct decimalIDs ⟨7, ⟨1⟩⟩ "Product 1" Float64.zero =
      (none, some ErrorPriceIsRequired) ∧
    NewProduct decimalIDs ⟨7, ⟨1⟩⟩ "Product 1" Float64.minusOne =
      (none, some ErrorPriceIsInvalid) :=
  have h := (NewProduct_fails_atomically decimalIDs ⟨7, ⟨1⟩⟩).2 ⟨by decide, 7, rfl⟩
  ⟨h.1 Float64.ten, h.2.1 "Product 1" Float64.zero (by decide) (by decide),
    h.2.2 "Product 1" Float64.minusOne (by decide) (by decide)⟩

/-- C4, as stated, fails: `NewProduct("Product 1", 10.0)` succeeds and `Validate` on the
returned product returns nil, not an error. -/
theorem Validate_after_NewProduct_not_error :
    ∃ p, NewProduct decimalIDs ⟨7, ⟨1⟩⟩ "Product 1" Float64.ten = (some p, none) ∧
      ¬ (Validate decimalIDs p ≠ none) :=
  ⟨sampleProduct, by decide, by decide⟩

/-- C4, amended. On the product returned by a successful call of `NewProduct`, `Validate`
returns nil. -/
theorem Validate_after_NewProduct_nil (pkg : IDPkg ID) (w : World) (name : String)
    (price : Float64) (p : Product ID) (h : NewProduct pkg w name price = (some p, none)) :
    Validate pkg p = none := by
  rcases NewProduct_cases pkg w name price with ⟨e, _, hres⟩ | ⟨hv, hres⟩
  · rw [hres] at h
    exact absurd (Prod.mk.inj h).1 (by simp)
  · rw [hres] at h
    rw [← Option.some.inj (Prod.mk.inj h).1]
    exact hv

/-- C4, amended, at the input of `TestProductValidate`. -/
theorem Validate_after_NewProduct_nil_witness :
    NewProduct decimalIDs ⟨7, ⟨1⟩⟩ "Product 1" Float64.ten = (some sampleProduct, none) ∧
      Validate decimalIDs sampleProduct = none :=
  ⟨by decide, Validate_after_NewProduct_nil decimalIDs ⟨7, ⟨1⟩⟩ "Product 1" Float64.ten
    sampleProduct (by decide)⟩

end EntityClaims

/-! ## The handlers: mapping of repository errors -/

section ErrorMapping

variable {σ ID : Type}

/-- C5, as stated, fails: with an unreachable store, `findByID` in `GetProduct` and
`findAll` in `GetAllProducts` fail with a connectivity error, which is not a lookup miss,
and both handlers answer 404, not 500. -/
theorem connectivity_failure_is_answered_404 :
    (GetProduct decimalEncoder downDB (requestWithID "7" "") ()).events =
      [⟨Call.FindByID "7", some (StoreError.Failure "connection refused")⟩] ∧
    (GetProduct decimalEncoder downDB (requestWithID "7" "") ()).status = 404 ∧
    (GetAllProducts decimalEncoder downDB (listRequest "1" "10" "asc") ()).events =
      [⟨Call.FindAll 1 10 "asc", some (StoreError.Failure "connection refused")⟩] ∧
    (GetAllProducts decimalEncoder downDB (listRequest "1" "10" "asc") ()).status = 404 := by
  decide

/-- C5, amended. In every handler, a repository invocation that fails, with the lookup
miss or with any other error, decides the status by the method invoked: 404 for
`findByID` and `findAll`, 500 for `create`, `update` and `delete`. -/
theorem failed_call_decides_status (pkg : IDPkg ID) (json : JSONDecoder ID)
    (enc : JSONEncoder ID) (db : ProductInterface σ ID) (world : World) (r : Request) (s : σ)
    (ev : Event ID)
    (e : StoreError) (hfail : ev.err = some e) :
    (ev ∈ (CreateProduct pkg json db world r s).events →
      (CreateProduct pkg json db world r s).status = statusOfFailedCall ev.call) ∧
    (ev ∈ (GetProduct enc db r s).events →
      (GetProduct enc db r s).status = statusOfFailedCall ev.call) ∧
    (ev ∈ (UpdateProduct pkg json db r s).events →
      (UpdateProduct pkg json db r s).status = statusOfFailedCall ev.call) ∧
    (ev ∈ (DeleteProduct db r s).events →
      (DeleteProduct db r s).status = statusOfFailedCall ev.call) ∧
    (ev ∈ (GetAllProducts enc db r s).events →
      (GetAllProducts enc db r s).status = statusOfFailedCall ev.call) := by
  refine ⟨?_, ?_, ?_, ?_, ?_⟩
  · unfold CreateProduct
    simp only [Exchange.start, Exchange.Create, Exchange.WriteHeader, Exchange.status]
    rcases hd : json.DecodeCreateProductInput r.Body with _ | input
    · simp [hd]
    · rcases hn : NewProduct pkg world input.Name input.Price with ⟨p, _ | verr⟩
      · rcases h1 : db.Create p s with ⟨_ | e1, s1⟩
        · simp [hd, hn, h1]
          rintro rfl
          simp at hfail
        · simp [hd, hn, h1]
          rintro rfl
          rfl
      · simp [hd, hn]
  · unfold GetProduct
    simp only [Exchange.start, Exchange.FindByID, Exchange.WriteHeader, Exchange.HeaderSet,
      Exchange.Encode_status, Exchange.Encode_events, Exchange.status]
    by_cases hid : r.URLParam "id" = ""
    · simp [hid]
    · rcases h1 : db.FindByID (r.URLParam "id") s with ⟨⟨rec, _ | e1⟩, s1⟩
      · simp [hid, h1]
        rintro rfl
        simp at hfail
      · simp [hid, h1]
        rintro rfl
        rfl
  · unfold UpdateProduct
    simp only [Exchange.start, Exchange.FindByID, Exchange.Update, Exchange.WriteHeader,
      Exchange.status]
    by_cases hid : r.URLParam "id" = ""
    · simp [hid]
    · rcases hd : json.DecodeProduct r.Body with _ | decoded
      · simp [hid, hd]
      · rcases hp : pkg.ParseID (r.URLParam "id") with _ | parsed
        · simp [hid, hd, hp]
        · rcases h1 : db.FindByID (r.URLParam "id") s with ⟨⟨rec, _ | e1⟩, s1⟩
          · rcases h2 : db.Update (some { decoded with ID := parsed }) s1 with ⟨_ | e2, s2⟩
            · simp [hid, hd, hp, h1, h2]
              rintro (rfl | rfl) <;> simp at hfail
            · simp [hid, hd, hp, h1, h2]
              rintro (rfl | rfl)
              · simp at hfail
              · rfl
          · simp [hid, hd, hp, h1]
            rintro rfl
            rfl
  · unfold DeleteProduct
    simp only [Exchange.start, Exchange.FindByID, Exchange.Delete, Exchange.WriteHeader,
      Exchange.status]
    by_cases hid : r.URLParam "id" = ""
    · simp [hid]
    · rcases h1 : db.FindByID (r.URLParam "id") s with ⟨⟨rec, _ | e1⟩, s1⟩
      · rcases h2 : db.Delete rec s1 with ⟨_ | e2, s2⟩
        · simp [hid, h1, h2]
          rintro (rfl | rfl) <;> simp at hfail
        · simp [hid, h1, h2]
          rintro (rfl | rfl)
          · simp at hfail
          · rfl
      · simp [hid, h1]
        rintro rfl
        rfl
  · unfold GetAllProducts
    simp only [Exchange.start, Exchange.FindAll, Exchange.WriteHeader, Exchange.HeaderSet,
      Exchange.Encode_status, Exchange.Encode_events, Exchange.status]
    generalize (match Atoi (r.QueryGet "page") with | some v => v | none => (0 : Int)) = page
    generalize (match Atoi (r.QueryGet "limit") with | some v => v | none => (0 : Int)) = limit
    generalize (if r.QueryGet "sort" = "" then "desc" else r.QueryGet "sort") = sort
    rcases h1 : db.FindAll page limit sort s with ⟨⟨ps, _ | e1⟩, s1⟩
    · simp [h1]
      rintro rfl
      simp at hfail
    · simp [h1]
      rintro rfl
      rfl

/-- C5, amended, evaluated on three failures that are not lookup misses: `findByID` in
`GetProduct` (404), `findAll` in `GetAllProducts` (404) and `create` in `CreateProduct`
(500), all against the unreachable store. -/
theorem failed_call_decides_status_witness :
    (GetProduct decimalEncoder downDB (requestWithID "7" "") ()).status = 404 ∧
    (GetAllProducts decimalEncoder downDB (listRequest "1" "10" "asc") ()).status = 404 ∧
    (CreateProduct decimalIDs tableDecoder downDB ⟨7, ⟨1⟩⟩
      (requestWithID "" "\x7b\"name\":\"Product 1\",\"price\":10\x7d") ()).status = 500 :=
  ⟨(failed_call_decides_status decimalIDs tableDecoder decimalEncoder downDB ⟨7, ⟨1⟩⟩ (requestWithID "7" "") ()
      ⟨Call.FindByID "7", some (StoreError.Failure "connection refused")⟩
      (StoreError.Failure "connection refused") rfl).2.1 (by decide),
   (failed_call_decides_status decimalIDs tableDecoder decimalEncoder downDB ⟨7, ⟨1⟩⟩
      (listRequest "1" "10" "asc") ()
      ⟨Call.FindAll 1 10 "asc", some (StoreError.Failure "connection refused")⟩
      (StoreError.Failure "connection refused") rfl).2.2.2.2 (by decide),
   (failed_call_decides_status decimalIDs tableDecoder decimalEncoder downDB ⟨7, ⟨1⟩⟩
      (requestWithID "" "\x7b\"name\":\"Product 1\",\"price\":10\x7d") ()
      ⟨Call.Create (some sampleProduct), some (StoreError.Failure "connection refused")⟩
      (StoreError.Failure "connection refused") rfl).1 (by decide)⟩

end ErrorMapping

/-! ## The handlers: path identifier, delete, create, update, list -/

section HandlerClaims

variable {σ ID : Type}

/-- C6. With an empty path id, `GetProduct`, `UpdateProduct` and `DeleteProduct` answer 400
without invoking any repository method; and `UpdateProduct`, whatever the body, answers
400 without invoking any repository method when the path id fails `ParseID`. -/
theorem bad_path_id_rejected_before_repository (pkg : IDPkg ID) (json : JSONDecoder ID)
    (enc : JSONEncoder ID) (db : ProductInterface σ ID) (r : Request) (s : σ) :
    (r.URLParam "id" = "" →
      ((GetProduct enc db r s).status = 400 ∧ (GetProduct enc db r s).events = [] ∧
        (GetProduct enc db r s).store = s) ∧
      ((UpdateProduct pkg json db r s).status = 400 ∧
        (UpdateProduct pkg json db r s).events = [] ∧
        (UpdateProduct pkg json db r s).store = s) ∧
      ((DeleteProduct db r s).status = 400 ∧ (DeleteProduct db r s).events = [] ∧
        (DeleteProduct db r s).store = s)) ∧
    (∀ perr, pkg.ParseID (r.URLParam "id") = .error perr →
      (UpdateProduct pkg json db r s).status = 400 ∧
      (UpdateProduct pkg json db r s).events = [] ∧
      (UpdateProduct pkg json db r s).store = s) := by
  constructor
  · intro hid
    unfold GetProduct UpdateProduct DeleteProduct
    simp [hid, Exchange.start, Exchange.WriteHeader, Exchange.status, StatusBadRequest]
  · intro perr hp
    unfold UpdateProduct
    simp only [Exchange.start, Exchange.WriteHeader, Exchange.status]
    by_cases hid : r.URLParam "id" = ""
    · simp [hid, StatusBadRequest]
    · rcases hd : json.DecodeProduct r.Body with _ | decoded
      · simp [hid, hd, StatusBadRequest]
      · simp [hid, hd, hp, StatusBadRequest]

/-- C6, evaluated on a stored record: `GET` with an empty path id, and `PUT` with the
unparsable path id `"abc"` and a decodable body, both answer 400 with no repository
invocation. -/
theorem bad_path_id_rejected_before_repository_witness :
    ((GetProduct decimalEncoder memDB (requestWithID "" "") [sampleProduct]).status = 400 ∧
      (GetProduct decimalEncoder memDB (requestWithID "" "") [sampleProduct]).events = []) ∧
    ((UpdateProduct decimalIDs tableDecoder memDB
        (requestWithID "abc" "\x7b\"id\":\"99\",\"name\":\"\",\"price\":-1\x7d")
        [sampleProduct]).status = 400 ∧
      (UpdateProduct decimalIDs tableDecoder memDB
        (requestWithID "abc" "\x7b\"id\":\"99\",\"name\":\"\",\"price\":-1\x7d")
        [sampleProduct]).events = []) :=
  have h1 := (bad_path_id_rejected_before_repository decimalIDs tableDecoder decimalEncoder memDB
    (requestWithID "" "") [sampleProduct]).1 (by decide)
  have h2 := (bad_path_id_rejected_before_repository decimalIDs tableDecoder decimalEncoder memDB
    (requestWithID "abc" "\x7b\"id\":\"99\",\"name\":\"\",\"price\":-1\x7d")
    [sampleProduct]).2 "invalid id" rfl
  ⟨⟨h1.1.1, h1.1.2.1⟩, ⟨h2.1, h2.2.1⟩⟩

/-- C8. For a non-empty path id: when `findByID` returns a record without error,
`DeleteProduct` invokes `delete` exactly once, with that record, after the one `findByID`,
and answers 200 when `delete` succeeds (500 when it fails); when `findByID` returns an
error, `delete` is not invoked and the status is 404. -/
theorem DeleteProduct_deletes_fetched_record (db : ProductInterface σ ID) (r : Request)
    (s : σ) (hid : r.URLParam "id" ≠ "") :
    (∀ rec s1, db.FindByID (r.URLParam "id") s = ((rec, none), s1) →
      (DeleteProduct db r s).calls = [Call.FindByID (r.URLParam "id"), Call.Delete rec] ∧
      (∀ s2, db.Delete rec s1 = (none, s2) → (DeleteProduct db r s).status = 200) ∧
      (∀ derr s2, db.Delete rec s1 = (some derr, s2) → (DeleteProduct db r s).status = 500)) ∧
    (∀ rec ferr s1, db.FindByID (r.URLParam "id") s = ((rec, some ferr), s1) →
      (DeleteProduct db r s).calls = [Call.FindByID (r.URLParam "id")] ∧
      (DeleteProduct db r s).status = 404 ∧ (DeleteProduct db r s).store = s1) := by
  constructor
  · intro rec s1 h1
    unfold DeleteProduct
    simp only [Exchange.start, Exchange.FindByID, Exchange.Delete, Exchange.WriteHeader,
      Exchange.status, Exchange.calls]
    refine ⟨?_, ?_, ?_⟩
    · rcases h2 : db.Delete rec s1 with ⟨_ | e2, s2⟩ <;> simp [hid, h1, h2]
    · intro s2 h2
      simp [hid, h1, h2, StatusOK]
    · intro derr s2 h2
      simp [hid, h1, h2, StatusInternalServerError]
  · intro rec ferr s1 h1
    unfold DeleteProduct
    simp [hid, h1, Exchange.start, Exchange.FindByID, Exchange.WriteHeader, Exchange.status,
      Exchange.calls, StatusNotFound]

/-- C8, evaluated: `DELETE /products/7` on a store holding record 7 invokes `findByID("7")`
then `delete` with that record, answers 200 and leaves the store empty. -/
theorem DeleteProduct_deletes_fetched_record_witness :
    (DeleteProduct memDB (requestWithID "7" "") [sampleProduct]).calls =
      [Call.FindByID "7", Call.Delete (some sampleProduct)] ∧
    (DeleteProduct memDB (requestWithID "7" "") [sampleProduct]).status = 200 ∧
    (DeleteProduct memDB (requestWithID "7" "") [sampleProduct]).store = [] :=
  have h := (DeleteProduct_deletes_fetched_record memDB (requestWithID "7" "") [sampleProduct]
    (by decide)).1 (some sampleProduct) [sampleProduct] (by decide)
  ⟨h.1, h.2.1 [] (by decide), by decide⟩

/-- C9. For a create body that decodes to `input`, `NewProduct(input.Name, input.Price)`
returns either an error with a nil product or a product without error. When it returns an
error, `CreateProduct` answers 400 and `create` is not invoked;
when it returns a product, that product carries the name and price of the body, `create`
is invoked exactly once, with it, and the status is 201 when `create` succeeds and 500
when it returns an error. -/
theorem CreateProduct_validates_then_creates (pkg : IDPkg ID) (json : JSONDecoder ID)
    (db : ProductInterface σ ID) (world : World) (r : Request) (s : σ)
    (input : CreateProductInput) (hdec : json.DecodeCreateProductInput r.Body = .ok input) :
    ((∃ verr, NewProduct pkg world input.Name input.Price = (none, some verr)) ∨
      (∃ p, NewProduct pkg world input.Name input.Price = (some p, none))) ∧
    (∀ p verr, NewProduct pkg world input.Name input.Price = (p, some verr) →
      (CreateProduct pkg json db world r s).status = 400 ∧
      (CreateProduct pkg json db world r s).calls = [] ∧
      (CreateProduct pkg json db world r s).store = s) ∧
    (∀ p, NewProduct pkg world input.Name input.Price = (some p, none) →
      p.Name = input.Name ∧ p.Price = input.Price ∧
      (CreateProduct pkg json db world r s).calls = [Call.Create (some p)] ∧
      (∀ s1, db.Create (some p) s = (none, s1) →
        (CreateProduct pkg json db world r s).status = 201) ∧
      (∀ cerr s1, db.Create (some p) s = (some cerr, s1) →
        (CreateProduct pkg json db world r s).status = 500)) := by
  refine ⟨?_, ?_, ?_⟩
  · rcases NewProduct_cases pkg world input.Name input.Price with ⟨e, _, hres⟩ | ⟨_, hres⟩
    · exact Or.inl ⟨e, hres⟩
    · exact Or.inr ⟨_, hres⟩
  · intro p verr hn
    unfold CreateProduct
    simp [hdec, hn, Exchange.start, Exchange.WriteHeader, Exchange.status, Exchange.calls,
      StatusBadRequest]
  · intro p hn
    have hp : p = ⟨pkg.NewID world.entropy, input.Name, input.Price, world.now⟩ := by
      rcases NewProduct_cases pkg world input.Name input.Price with ⟨e, _, hres⟩ | ⟨_, hres⟩
      · rw [hres] at hn
        exact absurd (Prod.mk.inj hn).1 (by simp)
      · rw [hres] at hn
        exact (Option.some.inj (Prod.mk.inj hn).1).symm
    refine ⟨by rw [hp], by rw [hp], ?_, ?_, ?_⟩
    · unfold CreateProduct
      simp only [Exchange.start, Exchange.Create, Exchange.WriteHeader, Exchange.calls]
      rcases h1 : db.Create (some p) s with ⟨_ | e1, s1⟩ <;> simp [hdec, hn, h1]
    · intro s1 h1
      unfold CreateProduct
      simp [hdec, hn, h1, Exchange.start, Exchange.Create, Exchange.WriteHeader,
        Exchange.status, StatusCreated]
    · intro cerr s1 h1
      unfold CreateProduct
      simp [hdec, hn, h1, Exchange.start, Exchange.Create, Exchange.WriteHeader,
        Exchange.status, StatusInternalServerError]

/-- C9, evaluated: the body with an empty name and price `-1` is answered 400 with no
repository invocation; the body `Product 1` / `10` is answered 201 after one `create` with
the constructed product. -/
theorem CreateProduct_validates_then_creates_witness :
    ((CreateProduct decimalIDs tableDecoder memDB ⟨7, ⟨1⟩⟩
        (requestWithID "" "\x7b\"name\":\"\",\"price\":-1\x7d") []).status = 400 ∧
      (CreateProduct decimalIDs tableDecoder memDB ⟨7, ⟨1⟩⟩
        (requestWithID "" "\x7b\"name\":\"\",\"price\":-1\x7d") []).calls = []) ∧
    ((CreateProduct decimalIDs tableDecoder memDB ⟨7, ⟨1⟩⟩
        (requestWithID "" "\x7b\"name\":\"Product 1\",\"price\":10\x7d") []).calls =
        [Call.Create (some sampleProduct)] ∧
      (CreateProduct decimalIDs tableDecoder memDB ⟨7, ⟨1⟩⟩
        (requestWithID "" "\x7b\"name\":\"Product 1\",\"price\":10\x7d") []).status = 201) :=
  have h1 := (CreateProduct_validates_then_creates decimalIDs tableDecoder memDB ⟨7, ⟨1⟩⟩
    (requestWithID "" "\x7b\"name\":\"\",\"price\":-1\x7d") [] ⟨"", Float64.minusOne⟩ rfl).2.1
    none ErrorNameIsRequired (by decide)
  have h2 := (CreateProduct_validates_then_creates decimalIDs tableDecoder memDB ⟨7, ⟨1⟩⟩
    (requestWithID "" "\x7b\"name\":\"Product 1\",\"price\":10\x7d") []
    ⟨"Product 1", Float64.ten⟩ rfl).2.2 sampleProduct (by decide)
  ⟨⟨h1.1, h1.2.1⟩, ⟨h2.2.2.1, h2.2.2.2.1 [sampleProduct] (by decide)⟩⟩

/-- C10. For a non-empty path id that `ParseID` accepts and a body that decodes, with no
validation of the decoded fields: when `findByID` succeeds, `UpdateProduct` invokes
`update` exactly once, after the one `findByID`, with a product whose `ID` is the parsed
path id and whose `Name`, `Price` and `CreatedAt` are those decoded from the body, and
answers 200 when `update` succeeds and 500 when it fails; when `findByID` fails, `update`
is not invoked and the status is 404. -/
theorem UpdateProduct_replaces_record_at_path_id (pkg : IDPkg ID) (json : JSONDecoder ID)
    (db : ProductInterface σ ID) (r : Request) (s : σ) (decoded : Product ID) (parsed : ID)
    (hid : r.URLParam "id" ≠ "") (hdec : json.DecodeProduct r.Body = .ok decoded)
    (hparse : pkg.ParseID (r.URLParam "id") = .ok parsed) :
    (∀ rec s1, db.FindByID (r.URLParam "id") s = ((rec, none), s1) →
      ∃ product : Product ID,
        product.ID = parsed ∧ product.Name = decoded.Name ∧ product.Price = decoded.Price ∧
        product.CreatedAt = decoded.CreatedAt ∧
        (UpdateProduct pkg json db r s).calls =
          [Call.FindByID (r.URLParam "id"), Call.Update (some product)] ∧
        (∀ s2, db.Update (some product) s1 = (none, s2) →
          (UpdateProduct pkg json db r s).status = 200) ∧
        (∀ uerr s2, db.Update (some product) s1 = (some uerr, s2) →
          (UpdateProduct pkg json db r s).status = 500)) ∧
    (∀ rec ferr s1, db.FindByID (r.URLParam "id") s = ((rec, some ferr), s1) →
      (UpdateProduct pkg json db r s).calls = [Call.FindByID (r.URLParam "id")] ∧
      (UpdateProduct pkg json db r s).status = 404) := by
  constructor
  · intro rec s1 h1
    refine ⟨{ decoded with ID := parsed }, rfl, rfl, rfl, rfl, ?_, ?_, ?_⟩
    · unfold UpdateProduct
      simp only [Exchange.start, Exchange.FindByID, Exchange.Update, Exchange.WriteHeader,
        Exchange.calls]
      rcases h2 : db.Update (some { decoded with ID := parsed }) s1 with ⟨_ | e2, s2⟩ <;>
        simp [hid, hdec, hparse, h1, h2]
    · intro s2 h2
      unfold UpdateProduct
      simp [hid, hdec, hparse, h1, h2, Exchange.start, Exchange.FindByID, Exchange.Update,
        Exchange.WriteHeader, Exchange.status, StatusOK]
    · intro uerr s2 h2
      unfold UpdateProduct
      simp [hid, hdec, hparse, h1, h2, Exchange.start, Exchange.FindByID, Exchange.Update,
        Exchange.WriteHeader, Exchange.status, StatusInternalServerError]
  · intro rec ferr s1 h1
    unfold UpdateProduct
    simp [hid, hdec, hparse, h1, Exchange.start, Exchange.FindByID, Exchange.WriteHeader,
      Exchange.status, Exchange.calls, StatusNotFound]

/-- C10, evaluated: `PUT /products/7` with a body whose own id is 99, whose name is empty
and whose price is `-1` invokes `update` once with id 7 and the body's name, price and
creation time, answers 200, and the stored record 7 is replaced. -/
theorem UpdateProduct_replaces_record_at_path_id_witness :
    (UpdateProduct decimalIDs tableDecoder memDB
      (requestWithID "7" "\x7b\"id\":\"99\",\"name\":\"\",\"price\":-1\x7d")
      [sampleProduct]).calls =
      [Call.FindByID "7", Call.Update (some ⟨7, "", Float64.minusOne, ⟨5⟩⟩)] ∧
    (UpdateProduct decimalIDs tableDecoder memDB
      (requestWithID "7" "\x7b\"id\":\"99\",\"name\":\"\",\"price\":-1\x7d")
      [sampleProduct]).status = 200 ∧
    (UpdateProduct decimalIDs tableDecoder memDB
      (requestWithID "7" "\x7b\"id\":\"99\",\"name\":\"\",\"price\":-1\x7d")
      [sampleProduct]).store = [⟨7, "", Float64.minusOne, ⟨5⟩⟩] := by
  obtain ⟨product, h1, h2, h3, h4, hcalls, hok, _⟩ :=
    (UpdateProduct_replaces_record_at_path_id decimalIDs tableDecoder memDB
      (requestWithID "7" "\x7b\"id\":\"99\",\"name\":\"\",\"price\":-1\x7d") [sampleProduct]
      ⟨99, "", Float64.minusOne, ⟨5⟩⟩ 7 (by decide) rfl rfl).1
      (some sampleProduct) [sampleProduct] (by decide)
  have hprod : product = ⟨7, "", Float64.minusOne, ⟨5⟩⟩ := by
    cases product
    simp_all
  subst hprod
  exact ⟨hcalls, hok [⟨7, "", Float64.minusOne, ⟨5⟩⟩] (by decide), by decide⟩

/-- C7, as stated, fails: `findAll` succeeds and returns a record whose price is `+Inf` (a
price `Validate` accepts); `GetAllProducts` answers 200 but the body is empty, not the
returned sequence, because the encoding fails and its error is discarded. -/
theorem GetAllProducts_infinite_price_empty_body :
    Validate decimalIDs infiniteProduct = none ∧
    memDB.FindAll 0 0 "desc" [infiniteProduct] = (([infiniteProduct], none), [infiniteProduct]) ∧
    (GetAllProducts decimalEncoder memDB (listRequest "" "" "") [infiniteProduct]).events =
      [⟨Call.FindAll 0 0 "desc", none⟩] ∧
    (GetAllProducts decimalEncoder memDB (listRequest "" "" "") [infiniteProduct]).status = 200 ∧
    (GetAllProducts decimalEncoder memDB (listRequest "" "" "") [infiniteProduct]).w.body = [] ∧
    (GetAllProducts decimalEncoder memDB (listRequest "" "" "") [infiniteProduct]).w.body ≠
      [Encoded.products [infiniteProduct]] := by
  decide

/-- C7, amended. For every query string, `GetAllProducts` invokes `findAll` exactly once,
and no other repository method: with `page` the value `Atoi` gives for the `page` parameter
when it parses and 0 when it does not, `limit` likewise from the `limit` parameter, and
`sort` the `sort` parameter when it is non-empty and `"desc"` when it is empty or absent.
When `findAll` succeeds the answer is 200, with the returned sequence as body when the
sequence marshals as JSON and with an empty body when it does not, which is the case as
soon as one record has an infinite or NaN price. When `findAll` returns an error the
answer is 404 with no body. -/
theorem GetAllProducts_defaults_and_status (enc : JSONEncoder ID) (db : ProductInterface σ ID)
    (r : Request) (s : σ) :
    ∃ (page limit : Int) (sort : String),
      (∀ v, Atoi (r.QueryGet "page") = some v → page = v) ∧
      (Atoi (r.QueryGet "page") = none → page = 0) ∧
      (∀ v, Atoi (r.QueryGet "limit") = some v → limit = v) ∧
      (Atoi (r.QueryGet "limit") = none → limit = 0) ∧
      (r.QueryGet "sort" ≠ "" → sort = r.QueryGet "sort") ∧
      (r.QueryGet "sort" = "" → sort = "desc") ∧
      (GetAllProducts enc db r s).calls = [Call.FindAll page limit sort] ∧
      (∀ products s1, db.FindAll page limit sort s = ((products, none), s1) →
        (GetAllProducts enc db r s).status = 200 ∧
        (marshals enc (Encoded.products products) = true →
          (GetAllProducts enc db r s).w.body = [Encoded.products products]) ∧
        (marshals enc (Encoded.products products) = false →
          (GetAllProducts enc db r s).w.body = []) ∧
        (∀ p ∈ products, (p.Price.isInf || p.Price.isNaN) = true →
          (GetAllProducts enc db r s).w.body = [])) ∧
      (∀ products ferr s1, db.FindAll page limit sort s = ((products, some ferr), s1) →
        (GetAllProducts enc db r s).status = 404 ∧ (GetAllProducts enc db r s).w.body = []) := by
  refine ⟨(match Atoi (r.QueryGet "page") with | some v => v | none => 0),
    (match Atoi (r.QueryGet "limit") with | some v => v | none => 0),
    (if r.QueryGet "sort" = "" then "desc" else r.QueryGet "sort"), ?_, ?_, ?_, ?_, ?_, ?_, ?_⟩
  · intro v h
    rw [h]
  · intro h
    rw [h]
  · intro v h
    rw [h]
  · intro h
    rw [h]
  · intro h
    rw [if_neg h]
  · intro h
    rw [if_pos h]
  · unfold GetAllProducts
    simp only [Exchange.start, Exchange.FindAll, Exchange.WriteHeader, Exchange.HeaderSet,
      Exchange.Encode_status, Exchange.Encode_events, Exchange.Encode_body, Exchange.status,
      Exchange.calls]
    generalize (match Atoi (r.QueryGet "page") with | some v => v | none => (0 : Int)) = page
    generalize (match Atoi (r.QueryGet "limit") with | some v => v | none => (0 : Int)) = limit
    generalize (if r.QueryGet "sort" = "" then "desc" else r.QueryGet "sort") = sort
    refine ⟨?_, ?_, ?_⟩
    · rcases h1 : db.FindAll page limit sort s with ⟨⟨ps, _ | e1⟩, s1⟩ <;> simp [h1]
    · intro products s1 h1
      have hfail : ∀ p ∈ products, (p.Price.isInf || p.Price.isNaN) = true →
          marshals enc (Encoded.products products) = false := by
        intro p hp hprice
        cases hm : marshals enc (Encoded.products products)
        · rfl
        · have hall := List.all_eq_true.mp hm p hp
          unfold marshalsProduct at hall
          rw [hprice] at hall
          simp at hall
      refine ⟨?_, ?_, ?_, ?_⟩
      · simp [h1, StatusOK]
      · intro hm
        simp [h1, hm]
      · intro hm
        simp [h1, hm]
      · intro p hp hprice
        simp [h1, hfail p hp hprice]
    · intro products ferr s1 h1
      simp [h1, StatusNotFound]

/-- C7, amended, evaluated: with `page=abc`, an empty `limit` and no `sort`, `findAll` is
invoked once with page 0, limit 0 and sort `"desc"`, and the answer is 200 with the stored
records; with `page=2`, `limit=10` and `sort=asc` it is invoked with those values. -/
theorem GetAllProducts_defaults_and_status_witness :
    (GetAllProducts decimalEncoder memDB (listRequest "abc" "" "") [sampleProduct]).calls =
      [Call.FindAll 0 0 "desc"] ∧
    (GetAllProducts decimalEncoder memDB (listRequest "abc" "" "") [sampleProduct]).status =
      200 ∧
    (GetAllProducts decimalEncoder memDB (listRequest "abc" "" "") [sampleProduct]).w.body =
      [Encoded.products [sampleProduct]] ∧
    (GetAllProducts decimalEncoder memDB (listRequest "2" "10" "asc") [sampleProduct]).calls =
      [Call.FindAll 2 10 "asc"] := by
  obtain ⟨page, limit, sort, _, hp, _, hl, _, hs, hcalls, hok, _⟩ :=
    GetAllProducts_defaults_and_status decimalEncoder memDB (listRequest "abc" "" "")
      [sampleProduct]
  obtain ⟨page2, limit2, sort2, hp2, _, hl2, _, hs2, _, hcalls2, _, _⟩ :=
    GetAllProducts_defaults_and_status decimalEncoder memDB (listRequest "2" "10" "asc")
      [sampleProduct]
  have e1 : page = 0 := hp (by decide)
  have e2 : limit = 0 := hl (by decide)
  have e3 : sort = "desc" := hs (by decide)
  have e4 : page2 = 2 := hp2 2 (by decide)
  have e5 : limit2 = 10 := hl2 10 (by decide)
  have e6 : sort2 = "asc" := hs2 (by decide)
  subst e1 e2 e3 e4 e5 e6
  have h200 := hok [sampleProduct] [sampleProduct] (by decide)
  exact ⟨hcalls, h200.1, h200.2.1 (by decide), hcalls2⟩

end HandlerClaims

end GoExpert
